import Mathlib

/-!
Diskernet library server (`src/libraryServer.js`)

A shallow embedding of the service lifecycle (`start`, `stop`, the
`POST /base_path` restart protocol), of the snippet assembly done by the
`/search` handler and of the two HTML views, followed by the properties
proved about them.

Module-level variables (`running`, `Server`, `upAt`, `port`, the shared
express `app`) become the fields of `ServiceState`.  Everything the module
imports (`args`, `Archivist`, `highlight`, `DEBUG`, express and the node http
server) is outside the file and enters the model as a parameter.  Calls to
those collaborators and the assignments to `running` are recorded, in program
order, in `ServiceState.trace`.
-/

namespace LibraryServer

/-! ## Data model -/

/-- JavaScript exceptions distinguished by the model. -/
inductive JsError where
  | typeError (msg : String)
  | referenceError (ident : String)
  | thrown (msg : String)
  deriving DecidableEq, Repr

/-- An http.Server object returned by `app.listen`, identified by a number. -/
abbrev Handle := Nat

/-- One layer of the router stack of the express `app`. -/
structure Layer where
  method : String
  path : String
  deriving DecidableEq, Repr

/-- Observable steps of the module, in the order the code performs them. -/
inductive Event where
  | startCalled (server_port : Option Nat)
  | warnStartWhileRunning
  | setRunning (b : Bool)
  | addHandlersCalled
  | listen (port : Option Nat) (h : Handle)
  | errorStartingServer (e : JsError)
  | serverUp (upAt : Nat) (port : Option Nat)
  | beforePathChangedDone
  | updateBasePathDone (base_path : String) (change : Bool)
  | afterPathChangedDone
  | closeInitiated (h : Handle)
  | resEnd (body : String)
  | log (msg : String)
  | sleep (ms : Nat)
  | stopResolved
  deriving DecidableEq, Repr

/-- The module-level variables of libraryServer.js (`undefined` is `none`),
the router stack of the shared `app`, and the trace of observable steps. -/
structure ServiceState where
  running : Bool
  Server : Option Handle
  upAt : Option Nat
  port : Option Nat
  app : List Layer
  trace : List Event
  deriving DecidableEq, Repr

/-- State right after the module is loaded: `let running = false; let Server, upAt, port;`. -/
def initialState : ServiceState :=
  { running := false, Server := none, upAt := none, port := none, app := [], trace := [] }

/-- Append one observable step to the trace. -/
def ServiceState.emit (s : ServiceState) (e : Event) : ServiceState :=
  { s with trace := s.trace ++ [e] }

/-- How a call ended: the state it left behind and the exception it threw, if any. -/
structure Outcome where
  state : ServiceState
  thrown : Option JsError
  deriving DecidableEq, Repr

/-- The argument of `start`: `{server_port}`. -/
structure Config where
  server_port : Option Nat
  deriving DecidableEq, Repr

/-- What the surroundings answer during one `start` call: `args.library_path()`
and the result of `app.listen(Number(port), cb)` (a server object, or a
synchronous throw). -/
structure StartEnv where
  library_path : Option String
  listen : Except JsError Handle

/-! ## Lifecycle: `start`, `addHandlers`, `stop` -/

/-- The layers pushed by one run of `addHandlers` (source lines 45-112), in order; the
`/library` mount is added when `args.library_path()` is truthy, that is a non-empty string. -/
def handlerLayers (library_path : Option String) : List Layer :=
  [⟨"USE", "urlencoded"⟩, ⟨"USE", "static"⟩]
  ++ (match library_path with
      | some p => if p ≠ "" then [⟨"USE", "/library"⟩] else []
      | none => [])
  ++ [⟨"GET", "/search(.json)?"⟩, ⟨"GET", "/mode"⟩, ⟨"GET", "/archive_index.html"⟩,
      ⟨"POST", "/mode"⟩, ⟨"GET", "/base_path"⟩, ⟨"POST", "/base_path"⟩]

/-- The function `addHandlers()`: every `app.use`, `app.get`, `app.post` appends a layer
to the shared app. -/
def addHandlers (library_path : Option String) (s : ServiceState) : ServiceState :=
  { s with app := s.app ++ handlerLayers library_path,
           trace := s.trace ++ [Event.addHandlersCalled] }

/-- The function `start({server_port})` (source lines 22-43), up to its return. -/
def start (DEBUG : Bool) (env : StartEnv) (cfg : Config) (s : ServiceState) : Outcome :=
  let s := s.emit (Event.startCalled cfg.server_port)
  if s.running then
    ⟨if DEBUG then s.emit Event.warnStartWhileRunning else s, none⟩
  else
    let s := ({ s with running := true } : ServiceState).emit (Event.setRunning true)
    let s := { s with port := cfg.server_port }
    let s := addHandlers env.library_path s
    match env.listen with
    | Except.ok h =>
      ⟨({ s with Server := some h } : ServiceState).emit (Event.listen s.port h), none⟩
    | Except.error e =>
      let s := ({ s with running := false } : ServiceState).emit (Event.setRunning false)
      ⟨if DEBUG then s.emit (Event.errorStartingServer e) else s, none⟩

/-- The callback given to `app.listen` (source lines 31-38), run with `err` and the clock. -/
def listenCallback (err : Option JsError) (now : Nat) (s : ServiceState) : Outcome :=
  match err with
  | some e => ⟨({ s with running := false } : ServiceState).emit (Event.setRunning false), some e⟩
  | none =>
    let s := { s with upAt := some now }
    ⟨s.emit (Event.serverUp now s.port), none⟩

/-- The function `stop()` (source lines 114-126) up to `return pr`: `Server.close(cb)` on an
undefined `Server` throws a TypeError, which rejects the promise of the async function. -/
def stop (s : ServiceState) : Outcome :=
  let s := s.emit (Event.log "Closing library server...")
  match s.Server with
  | none => ⟨s, some (JsError.typeError "Cannot read properties of undefined (reading close)")⟩
  | some h => ⟨s.emit (Event.closeInitiated h), none⟩

/-- The close callback registered by `stop` (source lines 120-123): it logs and resolves. -/
def stopCloseCallback (s : ServiceState) : ServiceState :=
  (s.emit (Event.log "Library server closed.")).emit Event.stopResolved

/-! ## `POST /base_path` -/

/-- What the collaborators answer during one `POST /base_path` request. -/
structure BasePathEnv where
  beforePathChanged : Except JsError Unit
  updateBasePath : Except JsError Bool
  afterPathChanged : Except JsError Unit

/-- Result of a route handler: the outcome and whether it registered the restarting
close callback on the listener. -/
structure HandlerResult where
  state : ServiceState
  thrown : Option JsError
  onClose : Bool
  deriving DecidableEq, Repr

/-- The body of `res.end` when the path changed. -/
def restartingBody (base_path : String) : String :=
  "Base path set to " ++ base_path ++
    " and saved to preferences. See console for progress. Server restarting..."

/-- The handler of `POST /base_path` (source lines 92-111), up to the end of the
async function; the callback given to `Server.close` runs later. -/
def postBasePath (env : BasePathEnv) (base_path : String) (s : ServiceState) : HandlerResult :=
  match env.beforePathChanged with
  | Except.error e => ⟨s, some e, false⟩
  | Except.ok _ =>
    let s := s.emit Event.beforePathChangedDone
    match env.updateBasePath with
    | Except.error e => ⟨s, some e, false⟩
    | Except.ok change =>
      let s := s.emit (Event.updateBasePathDone base_path change)
      if change then
        match env.afterPathChanged with
        | Except.error e => ⟨s, some e, false⟩
        | Except.ok _ =>
          let s := s.emit Event.afterPathChangedDone
          match s.Server with
          | none =>
            ⟨s, some (JsError.typeError "Cannot read properties of undefined (reading close)"),
              false⟩
          | some h =>
            let s := s.emit (Event.closeInitiated h)
            ⟨s.emit (Event.resEnd (restartingBody base_path)), none, true⟩
      else
        ⟨s.emit (Event.resEnd "Base path not changed."), none, false⟩

/-- The callback given to `Server.close` by the handler (source lines 99-106). -/
def restartCallback (DEBUG : Bool) (env : StartEnv) (s : ServiceState) : Outcome :=
  let s := ({ s with running := false } : ServiceState).emit (Event.setRunning false)
  let s := s.emit (Event.log "Server closed.")
  let s := s.emit (Event.log "Waiting 50ms...")
  let s := s.emit (Event.sleep 50)
  let o := start DEBUG env ⟨s.port⟩ s
  ⟨o.state.emit (Event.log "Server restarting."), o.thrown⟩

/-- One `POST /base_path` request followed, when the handler registered it, by the close
callback of the old listener. -/
def basePathRequest (DEBUG : Bool) (benv : BasePathEnv) (senv : StartEnv)
    (base_path : String) (s : ServiceState) : ServiceState :=
  let r := postBasePath benv base_path s
  if r.onClose then (restartCallback DEBUG senv r.state).state else r.state

/-- A sequence of `start` calls, each with its own surroundings, nothing in between. -/
def startAll (DEBUG : Bool) : List (StartEnv × Config) → ServiceState → ServiceState
  | [], s => s
  | (env, cfg) :: rest, s => startAll DEBUG rest (start DEBUG env cfg s).state

/-- Whether a step is `app.listen` returning a listener. -/
def Event.isListen : Event → Bool
  | Event.listen _ _ => true
  | _ => false

/-- Number of listeners bound so far. -/
def boundCount (s : ServiceState) : Nat := s.trace.countP Event.isListen

/-! ## Snippet assembly in `GET /search` -/

/-- The method `Array.prototype.join(sep)` on an array of strings. -/
def join (sep : String) : List String → String
  | [] => ""
  | [x] => x
  | x :: y :: rest => x ++ sep ++ join sep (y :: rest)

/-- Insertion step of the stable sort: `x` goes before the first element that does not
have to precede it (a positive `cmp x y` means `x` comes after `y`). -/
def sortInsert {α : Type} (cmp : α → α → Int) (x : α) : List α → List α
  | [] => [x]
  | y :: ys => if cmp x y > 0 then y :: sortInsert cmp x ys else x :: y :: ys

/-- The method `Array.prototype.sort(cmp)`: a stable sort driven by the sign of `cmp`. -/
def jsSort {α : Type} (cmp : α → α → Int) : List α → List α
  | [] => []
  | x :: xs => sortInsert cmp x (jsSort cmp xs)

/-- A fragment as produced by the highlighter: `{offset, text}`. -/
structure Fragment where
  offset : Nat
  text : String
  deriving DecidableEq, Repr

/-- One element of the array returned by `highlight`: `{fragment: {offset, text}}`. -/
structure Highlight where
  fragment : Fragment
  deriving DecidableEq, Repr

/-- The comparator of source line 64: `({fragment:{offset:a}}, {fragment:{offset:b}}) => a-b`. -/
def byOffset (x y : Highlight) : Int := (x.fragment.offset : Int) - (y.fragment.offset : Int)

/-- The literal the snippet starts with (source line 63): three dots and a blank. -/
def snippetLead : String := "... "

/-- The literal given to `join` (source line 66): a blank, three dots and a blank. -/
def snippetSeparator : String := " ... "

/-- The fragments in the order the handler resolves them (source line 64). -/
def sortedFragments (hls : List Highlight) : List Highlight := jsSort byOffset hls

/-- The excerpts of a snippet: each sorted fragment resolved by `Archivist.findOffsets`
(source line 65). -/
def excerpts (findOffsets : String → String → String) (query : String)
    (hls : List Highlight) : List String :=
  (sortedFragments hls).map (fun hl => findOffsets query hl.fragment.text)

/-- The value assigned to `r.snippet` (source lines 63-66), given the array `hls` returned
by `highlight(query, r.content, ...)`. -/
def assembleSnippet (findOffsets : String → String → String) (query : String)
    (hls : List Highlight) : String :=
  snippetLead ++ join snippetSeparator (excerpts findOffsets query hls)

/-! ## Views -/

/-- A JavaScript string-or-missing value is truthy when it is a non-empty string. -/
def truthy : Option String → Bool
  | some t => t != ""
  | none => false

/-- The expression `a || b` on string-or-missing values. -/
def jsOr (a b : Option String) : Option String := if truthy a then a else b

/-- Template interpolation of a string-or-missing value. -/
def render : Option String → String
  | some t => t
  | none => "undefined"

/-- A value of the map `HL`: the highlighted title and url of a document. -/
structure Override where
  title : Option String
  url : Option String
  deriving DecidableEq, Repr

/-- A search result as the view reads it: `{snippet, url, title, id}`. -/
structure SearchResult where
  id : Nat
  url : String
  title : Option String
  snippet : String
  deriving DecidableEq, Repr

/-- The text in front of the list in `SearchResultView` (source lines 157-179). -/
def searchViewHead (query : String) : String :=
  "\n    <!DOCTYPE html>\n    <meta charset=utf-8>\n    <title>" ++ query ++
  " - 22120 search results</title>\n    <link rel=stylesheet href=/style.css>\n    <header>\n" ++
  "      <h1><a href=/>22120</a> &mdash; Search Results</h1>\n    </header>\n    <p>\n" ++
  "    View <a href=/archive_index.html>your index</a>, or\n    </p>\n" ++
  "    <form method=GET action=/search>\n      <fieldset class=search>\n" ++
  "        <legend>Search again</legend>\n" ++
  "        <input class=search type=search name=query placeholder=\"search your library\" value=\"" ++
  query ++ "\">\n        <button>Search</button>\n      </fieldset>\n    </form>\n    <p>\n" ++
  "      Showing results for <b>" ++ query ++ "</b>\n    </p>\n    <ol>\n    "

/-- The text after the list in `SearchResultView` (source lines 188-190). -/
def searchViewTail : String := "\n    </ol>\n  "

/-- The template of one list entry (source lines 180-187), with its five interpolations. -/
def entryHtml (dbg href label shown snippet : String) : String :=
  "\n        <li>\n          " ++ dbg ++ " <a target=_blank href=" ++ href ++ ">" ++ label ++
  "</a>\n          <br>\n          <small class=url>" ++ shown ++ "</small>\n          <p>" ++
  snippet ++ "</p>\n        </li>\n      "

/-- The interpolation of the id in front of an entry: the id and a colon when `DEBUG` is
set, else the empty string. -/
def debugTag (DEBUG : Bool) (id : Nat) : String := if DEBUG then toString id ++ ":" else ""

/-- The callback of `results.map` in `SearchResultView` (source lines 180-187); `HL.get(id)`
is `HL id`, `?.` on a missing value gives a missing value. -/
def resultItem (DEBUG : Bool) (HL : Nat → Option Override) (r : SearchResult) : String :=
  entryHtml (debugTag DEBUG r.id)
    r.url
    (render (jsOr (jsOr ((HL r.id).bind Override.title) r.title) (some r.url)))
    (render (jsOr ((HL r.id).bind Override.url) (some r.url)))
    r.snippet

/-- The function `SearchResultView({results, query, HL})` (source lines 156-191). -/
def SearchResultView (DEBUG : Bool) (results : List SearchResult) (query : String)
    (HL : Nat → Option Override) : String :=
  searchViewHead query ++ join "\n" (results.map (resultItem DEBUG HL)) ++ searchViewTail

/-- Names bound in the module scope of libraryServer.js: its imports (lines 1-7) and its
top-level declarations. -/
def moduleBindings : List String :=
  ["path", "express", "args", "MAX_HIGHLIGHTABLE_LENGTH", "DEBUG", "say", "sleep", "APP_ROOT",
   "Archivist", "highlight", "SITE_PATH", "app", "running", "Server", "upAt", "port",
   "LibraryServer", "start", "addHandlers", "stop", "IndexView", "SearchResultView"]

/-- Evaluating a reference to a module-level identifier: a name without a binding raises a
ReferenceError; `value` is what the name denotes when it is bound. -/
def readIdentifier {α : Type} (name : String) (value : α) : Except JsError α :=
  if name ∈ moduleBindings then Except.ok value else Except.error (JsError.referenceError name)

/-- An element of the array given to `IndexView`: `[url, {title, id}]`. -/
structure IndexEntry where
  url : String
  title : Option String
  id : Nat
  deriving DecidableEq, Repr

/-- The text in front of the list in `IndexView` (source lines 129-145). -/
def indexViewHead : String :=
  "\n    <!DOCTYPE html>\n    <meta charset=utf-8>\n    <title>Your HTML Library</title>\n" ++
  "    <link rel=stylesheet href=/style.css>\n    <header>\n" ++
  "      <h1><a href=/>22120</a> &mdash; Archive Index</h1>\n    </header>\n" ++
  "    <form method=GET action=/search>\n      <fieldset class=search>\n" ++
  "        <legend>Search your archive</legend>\n" ++
  "        <input class=search type=search name=query placeholder=\"search your library\">\n" ++
  "        <button>Search</button>\n      </fieldset>\n    </form>\n    <ul>\n    "

/-- The text after the list in `IndexView` (source lines 151-153). -/
def indexViewTail : String := "\n    </ul>\n  "

/-- The callback of `urls.map` in `IndexView` (source lines 146-150); its interpolations are
evaluated left to right, the last one reads `MAX_HEAD`. -/
def indexItem (DEBUG : Bool) (maxHead : Nat) (e : IndexEntry) : Except JsError String :=
  let dbg := debugTag DEBUG e.id
  let href := e.url
  let label := render (jsOr e.title (some e.url))
  match readIdentifier "MAX_HEAD" maxHead with
  | Except.error err => Except.error err
  | Except.ok n =>
    Except.ok ("\n        <li>\n          " ++ dbg ++ " <a target=_blank href=" ++ href ++ ">" ++
      label.take n ++ "</a>\n        </li>\n      ")

/-- The method `Array.prototype.map` with a callback that may throw: the callback runs on the
elements from left to right and its first exception ends the map. -/
def mapThrowing {α β : Type} (f : α → Except JsError β) : List α → Except JsError (List β)
  | [] => Except.ok []
  | x :: xs =>
    match f x with
    | Except.error e => Except.error e
    | Except.ok y =>
      match mapThrowing f xs with
      | Except.error e => Except.error e
      | Except.ok ys => Except.ok (y :: ys)

/-- The function `IndexView(urls)` (source lines 128-154). -/
def IndexView (DEBUG : Bool) (maxHead : Nat) (urls : List IndexEntry) : Except JsError String :=
  match mapThrowing (indexItem DEBUG maxHead) urls with
  | Except.error e => Except.error e
  | Except.ok items => Except.ok (indexViewHead ++ join "\n" items ++ indexViewTail)

/-! ## Vocabulary of the properties -/

/-- Ascending order of the offsets along a list. -/
def Ascending (l : List Highlight) : Prop :=
  l.Pairwise (fun a b => a.fragment.offset ≤ b.fragment.offset)

/-- The fragments of a list whose offset is `k`, in list order. -/
def atOffset (k : Nat) (l : List Highlight) : List Highlight :=
  l.filter (fun hl => hl.fragment.offset == k)

/-- The snippet as the specification words it: the separator marker, then the excerpts
joined with that same separator. -/
def claimedSnippet (findOffsets : String → String → String) (query : String)
    (hls : List Highlight) : String :=
  snippetSeparator ++ join snippetSeparator (excerpts findOffsets query hls)

/-- The label of an entry as the specification words it: the override title when there is
one, else the title of the detail record, else the raw url. -/
def claimedLabel (HL : Nat → Option Override) (r : SearchResult) : String :=
  match HL r.id with
  | some ⟨some t, _⟩ =>
    if t ≠ "" then t else
      match r.title with
      | some u => if u ≠ "" then u else r.url
      | none => r.url
  | _ =>
    match r.title with
    | some u => if u ≠ "" then u else r.url
    | none => r.url

/-- The url of an entry as the specification words it: the override url when there is one,
else the url of the detail record. -/
def claimedUrl (HL : Nat → Option Override) (r : SearchResult) : String :=
  match HL r.id with
  | some ⟨_, some u⟩ => if u ≠ "" then u else r.url
  | _ => r.url

/-- The search view as the specification words it: the override url is both the link target
and the url shown. -/
def claimedSearchResultView (DEBUG : Bool) (results : List SearchResult) (query : String)
    (HL : Nat → Option Override) : String :=
  searchViewHead query ++
    join "\n" (results.map (fun r =>
      entryHtml (debugTag DEBUG r.id) (claimedUrl HL r) (claimedLabel HL r) (claimedUrl HL r)
        r.snippet)) ++
    searchViewTail

/-- Whether a step initiates the close of a listener. -/
def Event.isClose : Event → Bool
  | Event.closeInitiated _ => true
  | _ => false

/-- Whether a step is an entry into `start`. -/
def Event.isStartCalled : Event → Bool
  | Event.startCalled _ => true
  | _ => false

/-- Whether a step is the return of `beforePathChanged`. -/
def Event.isBeforeDone : Event → Bool
  | Event.beforePathChangedDone => true
  | _ => false

/-- Whether a step is the completion of the awaited `afterPathChanged`. -/
def Event.isAfterDone : Event → Bool
  | Event.afterPathChangedDone => true
  | _ => false

/-- Whether a step is the assignment `running = false`. -/
def Event.isRunningFalse : Event → Bool
  | Event.setRunning false => true
  | _ => false

/-- Whether a step is a run of `addHandlers`. -/
def Event.isAddHandlers : Event → Bool
  | Event.addHandlersCalled => true
  | _ => false

/-- The bodies written with `res.end` along a trace. -/
def responses : List Event → List String
  | [] => []
  | Event.resEnd body :: t => body :: responses t
  | _ :: t => responses t

/-- Every step of kind `b` in the trace comes after some step of kind `a`. -/
def Before (a b : Event → Bool) (t : List Event) : Prop :=
  ∀ pre e post, t = pre ++ e :: post → b e = true → ∃ x ∈ pre, a x = true

/-- Executable check of `Before`: scanning from the left, a step of kind `a` is met before
any step of kind `b`. -/
def beforeCheck (a b : Event → Bool) : List Event → Bool
  | [] => true
  | e :: t => if b e then false else if a e then true else beforeCheck a b t

/-- The state of a service started on port 8080 whose listener 1 is up since time 0. -/
def runningState : ServiceState :=
  (listenCallback none 0 (start false ⟨none, Except.ok 1⟩ ⟨some 8080⟩ initialState).state).state

end LibraryServer

/-! ## Facts about the sort and about `join` -/

namespace LibraryServer

theorem sortInsert_perm {α : Type} (cmp : α → α → Int) (x : α) (l : List α) :
    (sortInsert cmp x l).Perm (x :: l) := by
  induction l with
  | nil => exact List.Perm.refl _
  | cons y ys ih =>
    unfold sortInsert
    split
    · exact ((List.Perm.cons y ih).trans (List.Perm.swap x y ys))
    · exact List.Perm.refl _

theorem jsSort_perm {α : Type} (cmp : α → α → Int) (l : List α) :
    (jsSort cmp l).Perm l := by
  induction l with
  | nil => exact List.Perm.refl _
  | cons x xs ih =>
    unfold jsSort
    exact (sortInsert_perm cmp x _).trans (List.Perm.cons x ih)

theorem sortInsert_ascending (x : Highlight) (l : List Highlight) (h : Ascending l) :
    Ascending (sortInsert byOffset x l) := by
  induction l with
  | nil => simp [sortInsert, Ascending]
  | cons y ys ih =>
    unfold Ascending at h
    rw [List.pairwise_cons] at h
    unfold sortInsert
    split
    · rename_i hgt
      have hyx : y.fragment.offset ≤ x.fragment.offset := by
        unfold byOffset at hgt
        omega
      unfold Ascending
      rw [List.pairwise_cons]
      refine ⟨?_, ih h.2⟩
      intro z hz
      have hz2 : z ∈ x :: ys := (sortInsert_perm byOffset x ys).subset hz
      rcases List.mem_cons.mp hz2 with rfl | hz3
      · exact hyx
      · exact h.1 z hz3
    · rename_i hle
      have hxy : x.fragment.offset ≤ y.fragment.offset := by
        unfold byOffset at hle
        omega
      unfold Ascending
      rw [List.pairwise_cons]
      refine ⟨?_, List.pairwise_cons.mpr h⟩
      intro z hz
      rcases List.mem_cons.mp hz with rfl | hz3
      · exact hxy
      · exact le_trans hxy (h.1 z hz3)

theorem jsSort_ascending (l : List Highlight) : Ascending (jsSort byOffset l) := by
  induction l with
  | nil => simp [jsSort, Ascending]
  | cons x xs ih =>
    unfold jsSort
    exact sortInsert_ascending x _ ih

theorem sortInsert_atOffset (k : Nat) (x : Highlight) (l : List Highlight) :
    atOffset k (sortInsert byOffset x l) = atOffset k (x :: l) := by
  induction l with
  | nil => rfl
  | cons y ys ih =>
    unfold sortInsert
    split
    · rename_i hgt
      have hne : x.fragment.offset ≠ y.fragment.offset := by
        unfold byOffset at hgt
        omega
      unfold atOffset at ih ⊢
      rw [List.filter_cons, ih]
      by_cases hx : x.fragment.offset = k
      · have hy : ¬ y.fragment.offset = k := fun hy => hne (hx.trans hy.symm)
        simp [List.filter_cons, hx, hy]
      · simp [List.filter_cons, hx]
    · rfl

theorem jsSort_atOffset (k : Nat) (l : List Highlight) :
    atOffset k (jsSort byOffset l) = atOffset k l := by
  induction l with
  | nil => rfl
  | cons x xs ih =>
    unfold jsSort
    rw [sortInsert_atOffset]
    unfold atOffset at ih ⊢
    rw [List.filter_cons, List.filter_cons, ih]

theorem join_length (sep : String) (l : List String) :
    (join sep l).length = (l.map String.length).sum + (l.length - 1) * sep.length := by
  induction l with
  | nil => simp [join]
  | cons x xs ih =>
    cases xs with
    | nil => simp [join]
    | cons y ys =>
      simp only [join, String.length_append, ih, List.map_cons, List.sum_cons, List.length_cons]
      simp only [Nat.add_sub_cancel]
      ring

theorem intercalate_go_eq_join (sep : String) (l : List String) :
    ∀ acc x, String.intercalate.go acc sep (x :: l) = acc ++ sep ++ join sep (x :: l) := by
  induction l with
  | nil =>
    intro acc x
    simp [String.intercalate.go, join]
  | cons y ys ih =>
    intro acc x
    rw [String.intercalate.go, ih, join]
    simp only [String.append_assoc]

theorem join_eq_intercalate (sep : String) (l : List String) :
    join sep l = sep.intercalate l := by
  cases l with
  | nil => rfl
  | cons x xs =>
    cases xs with
    | nil => simp [join, String.intercalate, String.intercalate.go]
    | cons y ys =>
      rw [String.intercalate, intercalate_go_eq_join, join]

theorem mem_of_mem_atOffset (k : Nat) (x : Highlight) (l : List Highlight)
    (h : x ∈ atOffset k l) : x ∈ l := by
  unfold atOffset at h
  exact (List.mem_filter.mp h).1

theorem mem_atOffset_self (x : Highlight) (l : List Highlight) (h : x ∈ l) :
    x ∈ atOffset x.fragment.offset l := by
  unfold atOffset
  exact List.mem_filter.mpr ⟨h, by simp⟩

theorem ascending_ext (l1 : List Highlight) :
    ∀ l2 : List Highlight, Ascending l1 → Ascending l2 →
      (∀ k, atOffset k l1 = atOffset k l2) → l1 = l2 := by
  induction l1 with
  | nil =>
    intro l2 _ _ h
    cases l2 with
    | nil => rfl
    | cons y ys =>
      have hy := mem_atOffset_self y (y :: ys) (List.mem_cons_self _ _)
      rw [← h] at hy
      simp [atOffset] at hy
  | cons x xs ih =>
    intro l2 h1 h2 h
    cases l2 with
    | nil =>
      have hx := mem_atOffset_self x (x :: xs) (List.mem_cons_self _ _)
      rw [h] at hx
      simp [atOffset] at hx
    | cons y ys =>
      unfold Ascending at h1 h2
      rw [List.pairwise_cons] at h1 h2
      have hxy : x.fragment.offset ≤ y.fragment.offset := by
        have hy := mem_atOffset_self y (y :: ys) (List.mem_cons_self _ _)
        rw [← h] at hy
        rcases List.mem_cons.mp (mem_of_mem_atOffset _ _ _ hy) with heq | hmem
        · rw [heq]
        · exact h1.1 y hmem
      have hyx : y.fragment.offset ≤ x.fragment.offset := by
        have hx := mem_atOffset_self x (x :: xs) (List.mem_cons_self _ _)
        rw [h] at hx
        rcases List.mem_cons.mp (mem_of_mem_atOffset _ _ _ hx) with heq | hmem
        · rw [heq]
        · exact h2.1 x hmem
      have hoff : x.fragment.offset = y.fragment.offset := le_antisymm hxy hyx
      have hhead : x = y := by
        have hk := h x.fragment.offset
        simp [atOffset, List.filter_cons, hoff] at hk
        exact hk.1
      subst hhead
      have htail : xs = ys := by
        apply ih ys h1.2 h2.2
        intro k
        have hk := h k
        unfold atOffset at hk ⊢
        rw [List.filter_cons, List.filter_cons] at hk
        by_cases hc : (x.fragment.offset == k) = true
        · simp only [hc, if_true, List.cons.injEq, true_and] at hk
          exact hk
        · simp only [hc, if_false, Bool.false_eq_true] at hk
          exact hk
      rw [htail]

theorem sortedFragments_of_same_ties (hls hls2 : List Highlight)
    (h : ∀ k, atOffset k hls2 = atOffset k hls) :
    sortedFragments hls2 = sortedFragments hls := by
  apply ascending_ext _ _ (jsSort_ascending hls2) (jsSort_ascending hls)
  intro k
  rw [jsSort_atOffset, jsSort_atOffset, h]

end LibraryServer

/-! ## Lifecycle lemmas -/

namespace LibraryServer

theorem before_of_check (a b : Event → Bool) (t : List Event)
    (h : beforeCheck a b t = true) : Before a b t := by
  induction t with
  | nil =>
    intro pre e post heq
    simp at heq
  | cons x xs ih =>
    intro pre e post heq hb
    unfold beforeCheck at h
    cases pre with
    | nil =>
      simp only [List.nil_append, List.cons.injEq] at heq
      rw [← heq.1] at hb
      simp [hb] at h
    | cons p ps =>
      simp only [List.cons_append, List.cons.injEq] at heq
      by_cases hbx : b x = true
      · simp [hbx] at h
      · by_cases hax : a x = true
        · exact ⟨x, by rw [heq.1]; exact List.mem_cons_self _ _, hax⟩
        · simp only [hbx, hax, if_false, Bool.false_eq_true] at h
          obtain ⟨y, hy, hay⟩ := ih h ps e post heq.2 hb
          exact ⟨y, List.mem_cons_of_mem _ hy, hay⟩

theorem start_of_running (DEBUG : Bool) (env : StartEnv) (cfg : Config) (s : ServiceState)
    (h : s.running = true) :
    (start DEBUG env cfg s).state.running = true
      ∧ boundCount (start DEBUG env cfg s).state = boundCount s := by
  cases DEBUG <;>
    simp [start, ServiceState.emit, h, boundCount, List.countP_append, Event.isListen]

theorem startAll_of_running (DEBUG : Bool) (calls : List (StartEnv × Config)) :
    ∀ s : ServiceState, s.running = true →
      boundCount (startAll DEBUG calls s) = boundCount s := by
  induction calls with
  | nil => intro s _; rfl
  | cons c rest ih =>
    intro s h
    obtain ⟨env, cfg⟩ := c
    have hs := start_of_running DEBUG env cfg s h
    simp only [startAll]
    rw [ih _ hs.1, hs.2]

theorem start_of_stopped (DEBUG : Bool) (env : StartEnv) (cfg : Config) (s : ServiceState)
    (h : s.running = false) :
    ((start DEBUG env cfg s).state.running = true
        ∧ boundCount (start DEBUG env cfg s).state = boundCount s + 1)
      ∨ ((start DEBUG env cfg s).state.running = false
        ∧ boundCount (start DEBUG env cfg s).state = boundCount s) := by
  obtain ⟨lp, ls⟩ := env
  cases ls <;> cases DEBUG <;>
    simp [start, addHandlers, ServiceState.emit, h, boundCount, List.countP_append,
      Event.isListen]

theorem startAll_bound (DEBUG : Bool) (calls : List (StartEnv × Config)) :
    ∀ s : ServiceState, boundCount (startAll DEBUG calls s) ≤ boundCount s + 1 := by
  induction calls with
  | nil => intro s; exact Nat.le_succ _
  | cons c rest ih =>
    intro s
    obtain ⟨env, cfg⟩ := c
    simp only [startAll]
    cases hr : s.running with
    | true =>
      have hs := start_of_running DEBUG env cfg s hr
      rw [startAll_of_running DEBUG rest _ hs.1, hs.2]
      exact Nat.le_succ _
    | false =>
      rcases start_of_stopped DEBUG env cfg s hr with ⟨h1, h2⟩ | ⟨_, h2⟩
      · rw [startAll_of_running DEBUG rest _ h1, h2]
      · have := ih (start DEBUG env cfg s).state
        rw [h2] at this
        exact this

end LibraryServer

/-! ## The claims -/

namespace LibraryServer

/-- C1: when `running` is true, `start(config)` is a no-op for every config: it returns
without throwing, runs no route registration, binds no listener, and leaves `running`,
`Server`, `port`, `upAt` and the app unchanged; hence a sequence of `start` calls with no
close in between binds no further listener from a running state, and at most one listener
from any state. -/
theorem start_while_running_is_noop (DEBUG : Bool) (env : StartEnv) (cfg : Config)
    (s : ServiceState) (h : s.running = true) :
    (start DEBUG env cfg s).thrown = none
      ∧ (start DEBUG env cfg s).state.running = s.running
      ∧ (start DEBUG env cfg s).state.Server = s.Server
      ∧ (start DEBUG env cfg s).state.port = s.port
      ∧ (start DEBUG env cfg s).state.upAt = s.upAt
      ∧ (start DEBUG env cfg s).state.app = s.app
      ∧ (∃ t, (start DEBUG env cfg s).state.trace = s.trace ++ t
          ∧ Event.addHandlersCalled ∉ t ∧ ∀ p l, Event.listen p l ∉ t)
      ∧ (∀ calls, boundCount (startAll DEBUG calls s) = boundCount s)
      ∧ (∀ calls s0, boundCount (startAll DEBUG calls s0) ≤ boundCount s0 + 1) := by
  refine ⟨?_, ?_, ?_, ?_, ?_, ?_, ?_, ?_, ?_⟩
  · cases DEBUG <;> simp [start, ServiceState.emit, h]
  · cases DEBUG <;> simp [start, ServiceState.emit, h]
  · cases DEBUG <;> simp [start, ServiceState.emit, h]
  · cases DEBUG <;> simp [start, ServiceState.emit, h]
  · cases DEBUG <;> simp [start, ServiceState.emit, h]
  · cases DEBUG <;> simp [start, ServiceState.emit, h]
  · cases DEBUG <;> simp [start, ServiceState.emit, h]
  · intro calls
    exact startAll_of_running DEBUG calls s h
  · intro calls s0
    exact startAll_bound DEBUG calls s0

/-- Witness of C1: a second `start` on the running service of `runningState`. -/
theorem start_while_running_is_noop_witness :
    runningState.running = true
      ∧ (start true ⟨none, Except.ok 2⟩ ⟨some 9090⟩ runningState).thrown = none
      ∧ (start true ⟨none, Except.ok 2⟩ ⟨some 9090⟩ runningState).state.Server = some 1
      ∧ (start true ⟨none, Except.ok 2⟩ ⟨some 9090⟩ runningState).state.port = some 8080 :=
  ⟨by decide,
   (start_while_running_is_noop true ⟨none, Except.ok 2⟩ ⟨some 9090⟩ runningState
      (by decide)).1,
   by decide, by decide⟩

/-- C2, evaluated on the code: `stop()` called before any `start` throws a TypeError, because
`Server` is still undefined when `Server.close` is evaluated; on a state whose `Server` is
set it initiates the close without throwing and leaves the four variables unchanged. -/
theorem stop_before_start_throws :
    initialState.running = false
      ∧ (stop initialState).thrown
          = some (JsError.typeError "Cannot read properties of undefined (reading close)")
      ∧ (∀ s h, s.Server = some h →
          (stop s).thrown = none
            ∧ (stopCloseCallback (stop s).state).running = s.running
            ∧ (stopCloseCallback (stop s).state).Server = s.Server
            ∧ (stopCloseCallback (stop s).state).port = s.port
            ∧ (stopCloseCallback (stop s).state).upAt = s.upAt) := by
  refine ⟨rfl, rfl, ?_⟩
  intro s h hS
  simp [stop, stopCloseCallback, ServiceState.emit, hS]

/-- C3, evaluated on the code: `stop()` never assigns `running`, so after it has resolved
`running` is what it was; on the running service of `runningState` it is still true, and
a following `start` returns at its guard without binding a listener. -/
theorem stop_leaves_running_set :
    (∀ s, (stopCloseCallback (stop s).state).running = s.running)
      ∧ runningState.running = true
      ∧ (stop runningState).thrown = none
      ∧ (stopCloseCallback (stop runningState).state).running = true
      ∧ boundCount (start false ⟨none, Except.ok 2⟩ ⟨some 8080⟩
            (stopCloseCallback (stop runningState).state)).state
          = boundCount (stopCloseCallback (stop runningState).state)
      ∧ (start false ⟨none, Except.ok 2⟩ ⟨some 8080⟩
            (stopCloseCallback (stop runningState).state)).state.Server = some 1 := by
  refine ⟨?_, by decide, by decide, by decide, by decide, by decide⟩
  intro s
  cases hS : s.Server <;> simp [stop, stopCloseCallback, ServiceState.emit, hS]

/-- C4: when `beforePathChanged` has returned and `updateBasePath` reports no change, the
`POST /base_path` request closes no listener, calls neither `afterPathChanged` nor `start`,
registers no close callback, leaves `running`, `Server`, `port` and the app unchanged, and
its only response body is "Base path not changed.". -/
theorem base_path_unchanged_is_noop (DEBUG : Bool) (benv : BasePathEnv) (senv : StartEnv)
    (base_path : String) (s : ServiceState)
    (hbefore : benv.beforePathChanged = Except.ok ())
    (hchange : benv.updateBasePath = Except.ok false) :
    (postBasePath benv base_path s).thrown = none
      ∧ (postBasePath benv base_path s).onClose = false
      ∧ basePathRequest DEBUG benv senv base_path s = (postBasePath benv base_path s).state
      ∧ (basePathRequest DEBUG benv senv base_path s).running = s.running
      ∧ (basePathRequest DEBUG benv senv base_path s).Server = s.Server
      ∧ (basePathRequest DEBUG benv senv base_path s).port = s.port
      ∧ (basePathRequest DEBUG benv senv base_path s).app = s.app
      ∧ ∃ t, (basePathRequest DEBUG benv senv base_path s).trace = s.trace ++ t
          ∧ (∀ e ∈ t, e.isClose = false ∧ e.isAfterDone = false ∧ e.isStartCalled = false)
          ∧ responses t = ["Base path not changed."] := by
  obtain ⟨b, u, a⟩ := benv
  simp only at hbefore hchange
  subst hbefore hchange
  simp [basePathRequest, postBasePath, ServiceState.emit, responses, Event.isClose,
    Event.isAfterDone, Event.isStartCalled]

/-- Witness of C4: posting an unchanged path to the running service of `runningState`. -/
theorem base_path_unchanged_is_noop_witness :
    (postBasePath ⟨Except.ok (), Except.ok false, Except.ok ()⟩ "/lib" runningState).onClose
        = false
      ∧ (basePathRequest false ⟨Except.ok (), Except.ok false, Except.ok ()⟩
          ⟨none, Except.ok 2⟩ "/lib" runningState).running = true :=
  ⟨(base_path_unchanged_is_noop false ⟨Except.ok (), Except.ok false, Except.ok ()⟩
      ⟨none, Except.ok 2⟩ "/lib" runningState rfl rfl).2.1,
   by decide⟩

/-- C5: when the path did change, the steps of a `POST /base_path` request and of the close
callback it registers are ordered: `beforePathChanged` and the awaited `afterPathChanged`
are done before the close of the old listener is initiated, `afterPathChanged` is done and
`running` is set to false before `start` is entered again, and that `start` receives the
value of `port`, which is the port the service was started with. Because `running` is false
when the restarting `start` is entered, that call gets past its guard whatever `running` was
at the request: it calls `app.listen` on the same port, and when a listener comes back the
service ends running on the new listener with `port` unchanged and one more listener bound;
when `afterPathChanged` rejects, nothing is closed and nothing restarted. -/
theorem restart_order (DEBUG : Bool) (benv : BasePathEnv) (senv : StartEnv)
    (base_path : String) (s : ServiceState)
    (hbefore : benv.beforePathChanged = Except.ok ())
    (hchange : benv.updateBasePath = Except.ok true) :
    (∃ t, (basePathRequest DEBUG benv senv base_path s).trace = s.trace ++ t
      ∧ Before Event.isBeforeDone Event.isClose t
      ∧ Before Event.isAfterDone Event.isClose t
      ∧ Before Event.isAfterDone Event.isStartCalled t
      ∧ Before Event.isRunningFalse Event.isStartCalled t
      ∧ Before Event.isStartCalled Event.isListen t
      ∧ (∀ p, Event.startCalled p ∈ t → p = s.port)
      ∧ (∀ p l, Event.listen p l ∈ t → p = s.port)
      ∧ (benv.afterPathChanged = Except.ok () → ∀ h, s.Server = some h →
          Event.closeInitiated h ∈ t ∧ Event.startCalled s.port ∈ t
            ∧ Event.setRunning false ∈ t
            ∧ (∀ h2, senv.listen = Except.ok h2 → Event.listen s.port h2 ∈ t)))
    ∧ (benv.afterPathChanged = Except.ok () → ∀ h, s.Server = some h →
        (basePathRequest DEBUG benv senv base_path s).port = s.port
          ∧ (basePathRequest DEBUG benv senv base_path s).app
              = s.app ++ handlerLayers senv.library_path
          ∧ (∀ h2, senv.listen = Except.ok h2 →
              (basePathRequest DEBUG benv senv base_path s).running = true
                ∧ (basePathRequest DEBUG benv senv base_path s).Server = some h2
                ∧ boundCount (basePathRequest DEBUG benv senv base_path s)
                    = boundCount s + 1)
          ∧ (∀ e, senv.listen = Except.error e →
              (basePathRequest DEBUG benv senv base_path s).running = false
                ∧ (basePathRequest DEBUG benv senv base_path s).Server = some h
                ∧ boundCount (basePathRequest DEBUG benv senv base_path s) = boundCount s))
    ∧ (∀ e, benv.afterPathChanged = Except.error e →
        (postBasePath benv base_path s).onClose = false
          ∧ (basePathRequest DEBUG benv senv base_path s).running = s.running
          ∧ (basePathRequest DEBUG benv senv base_path s).Server = s.Server
          ∧ (basePathRequest DEBUG benv senv base_path s).app = s.app
          ∧ boundCount (basePathRequest DEBUG benv senv base_path s) = boundCount s)
    ∧ (∀ env0 cfg s0, s0.running = false →
        (start DEBUG env0 cfg s0).state.port = cfg.server_port) := by
  refine ⟨?_, ?_, ?_, ?_⟩
  · obtain ⟨b, u, a⟩ := benv
    obtain ⟨lp, ls⟩ := senv
    simp only at hbefore hchange
    subst hbefore hchange
    cases a <;> cases hS : s.Server <;> cases ls <;> cases DEBUG <;>
      simp [basePathRequest, postBasePath, restartCallback, start, addHandlers,
        ServiceState.emit, hS]
    all_goals
      exact ⟨before_of_check _ _ _ rfl, before_of_check _ _ _ rfl, before_of_check _ _ _ rfl,
        before_of_check _ _ _ rfl, before_of_check _ _ _ rfl⟩
  · obtain ⟨b, u, a⟩ := benv
    obtain ⟨lp, ls⟩ := senv
    simp only at hbefore hchange
    subst hbefore hchange
    intro ha h hS
    simp only at ha
    subst ha
    cases ls <;> cases DEBUG <;>
      simp [basePathRequest, postBasePath, restartCallback, start, addHandlers,
        ServiceState.emit, hS, boundCount, List.countP_append, List.countP_cons,
        Event.isListen]
  · obtain ⟨b, u, a⟩ := benv
    simp only at hbefore hchange
    subst hbefore hchange
    intro e ha
    simp only at ha
    subst ha
    simp [basePathRequest, postBasePath, ServiceState.emit, boundCount, List.countP_append,
      List.countP_cons, Event.isListen]
  · intro env0 cfg s0 h0
    obtain ⟨lp, ls⟩ := env0
    cases ls <;> cases DEBUG <;> simp [start, addHandlers, ServiceState.emit, h0]

/-- Witness of C5: a changed path posted to the running service of `runningState`; the
restarting `start` receives port 8080 and the service ends running on listener 2. -/
theorem restart_order_witness :
    Event.startCalled (some 8080) ∈
        (basePathRequest false ⟨Except.ok (), Except.ok true, Except.ok ()⟩
          ⟨none, Except.ok 2⟩ "/new" runningState).trace
      ∧ (basePathRequest false ⟨Except.ok (), Except.ok true, Except.ok ()⟩
          ⟨none, Except.ok 2⟩ "/new" runningState).running = true
      ∧ (basePathRequest false ⟨Except.ok (), Except.ok true, Except.ok ()⟩
          ⟨none, Except.ok 2⟩ "/new" runningState).Server = some 2
      ∧ ∃ t, (basePathRequest false ⟨Except.ok (), Except.ok true, Except.ok ()⟩
          ⟨none, Except.ok 2⟩ "/new" runningState).trace = runningState.trace ++ t
        ∧ Before Event.isBeforeDone Event.isClose t :=
  ⟨by decide,
   (((restart_order false ⟨Except.ok (), Except.ok true, Except.ok ()⟩ ⟨none, Except.ok 2⟩
      "/new" runningState rfl rfl).2.1 rfl 1 rfl).2.2.1 2 rfl).1,
   by decide,
   (restart_order false ⟨Except.ok (), Except.ok true, Except.ok ()⟩ ⟨none, Except.ok 2⟩
      "/new" runningState rfl rfl).1.imp (fun _ ht => ⟨ht.1, ht.2.1⟩)⟩

/-- C6, evaluated on the code: every `start` that passes the guard runs `addHandlers` on the
shared app, so after one base-path restart of the service of `runningState` the route
registration has run twice and `POST /base_path` has two handlers. -/
theorem restart_registers_routes_again :
    (runningState.trace.countP Event.isAddHandlers = 1
      ∧ runningState.app.count ⟨"POST", "/base_path"⟩ = 1)
    ∧ ((basePathRequest false ⟨Except.ok (), Except.ok true, Except.ok ()⟩
          ⟨none, Except.ok 2⟩ "/new" runningState).trace.countP Event.isAddHandlers = 2
      ∧ (basePathRequest false ⟨Except.ok (), Except.ok true, Except.ok ()⟩
          ⟨none, Except.ok 2⟩ "/new" runningState).app.count ⟨"POST", "/base_path"⟩ = 2) := by
  decide

end LibraryServer

namespace LibraryServer

theorem label_eq_claimed (HL : Nat → Option Override) (r : SearchResult) :
    render (jsOr (jsOr ((HL r.id).bind Override.title) r.title) (some r.url))
      = claimedLabel HL r := by
  unfold claimedLabel
  cases hHL : HL r.id with
  | none =>
    cases hT : r.title with
    | none => simp [jsOr, truthy, render]
    | some u => by_cases hu : u = "" <;> simp [jsOr, truthy, render, hu]
  | some o =>
    obtain ⟨ot, ou⟩ := o
    cases ot with
    | none =>
      cases hT : r.title with
      | none => simp [jsOr, truthy, render]
      | some u => by_cases hu : u = "" <;> simp [jsOr, truthy, render, hu]
    | some t =>
      by_cases ht : t = ""
      · cases hT : r.title with
        | none => simp [jsOr, truthy, render, ht]
        | some u => by_cases hu : u = "" <;> simp [jsOr, truthy, render, hu, ht]
      · simp [jsOr, truthy, render, ht]

theorem shown_eq_claimed (HL : Nat → Option Override) (r : SearchResult) :
    render (jsOr ((HL r.id).bind Override.url) (some r.url)) = claimedUrl HL r := by
  unfold claimedUrl
  cases hHL : HL r.id with
  | none => simp [jsOr, truthy, render]
  | some o =>
    obtain ⟨ot, ou⟩ := o
    cases ou with
    | none => simp [jsOr, truthy, render]
    | some u => by_cases hu : u = "" <;> simp [jsOr, truthy, render, hu]

/-- C7: the snippet string is the lead followed by the excerpts of the fragments taken in
the order `sortedFragments` and separated by the separator (stated with the library
`String.intercalate`); that order is ascending in `fragment.offset`, a permutation of the
list returned by the highlighter, and stable (for every offset the fragments at that offset
keep their relative order), so the snippet does not depend on the input order beyond the
relative order of equal offsets; fragments with offsets 50, 10, 30 are merged in the order
10, 30, 50. -/
theorem snippet_fragments_in_stable_offset_order (findOffsets : String → String → String)
    (query : String) (hls : List Highlight) :
    assembleSnippet findOffsets query hls
        = snippetLead ++ join snippetSeparator
            ((sortedFragments hls).map (fun hl => findOffsets query hl.fragment.text))
      ∧ assembleSnippet findOffsets query hls
        = "... " ++ " ... ".intercalate
            ((sortedFragments hls).map (fun hl => findOffsets query hl.fragment.text))
      ∧ Ascending (sortedFragments hls)
      ∧ (sortedFragments hls).Perm hls
      ∧ (∀ k, atOffset k (sortedFragments hls) = atOffset k hls)
      ∧ (∀ hls2, (∀ k, atOffset k hls2 = atOffset k hls) →
          assembleSnippet findOffsets query hls2 = assembleSnippet findOffsets query hls)
      ∧ (∀ a b c : String,
          sortedFragments [⟨⟨50, a⟩⟩, ⟨⟨10, b⟩⟩, ⟨⟨30, c⟩⟩] = [⟨⟨10, b⟩⟩, ⟨⟨30, c⟩⟩, ⟨⟨50, a⟩⟩])
      ∧ (∀ a b c : String,
          assembleSnippet findOffsets query [⟨⟨50, a⟩⟩, ⟨⟨10, b⟩⟩, ⟨⟨30, c⟩⟩]
            = "... " ++ findOffsets query b ++ " ... " ++ findOffsets query c ++ " ... "
                ++ findOffsets query a)
      ∧ assembleSnippet (fun _ t => t) "q"
            [⟨⟨50, "fifty"⟩⟩, ⟨⟨10, "ten"⟩⟩, ⟨⟨30, "thirty"⟩⟩, ⟨⟨10, "ten again"⟩⟩]
          = "... ten ... ten again ... thirty ... fifty" := by
  refine ⟨rfl, ?_, jsSort_ascending hls, jsSort_perm byOffset hls,
    fun k => jsSort_atOffset k hls, ?_, ?_, ?_, by decide⟩
  · unfold assembleSnippet excerpts
    rw [join_eq_intercalate]
    rfl
  · intro hls2 h
    unfold assembleSnippet excerpts
    rw [sortedFragments_of_same_ties hls hls2 h]
  · intro a b c
    simp [sortedFragments, jsSort, sortInsert, byOffset]
  · intro a b c
    simp [assembleSnippet, excerpts, sortedFragments, jsSort, sortInsert, byOffset, join,
      snippetLead, snippetSeparator, String.append_assoc]

/-- Counterexample to C8 as stated: for an empty fragment list the code yields the four
characters of `snippetLead`, not the separator `" ... "` the claim puts in front. -/
theorem snippet_lead_is_not_separator :
    assembleSnippet (fun _ t => t) "q" [] ≠ claimedSnippet (fun _ t => t) "q" []
      ∧ assembleSnippet (fun _ t => t) "q" [] = "... "
      ∧ claimedSnippet (fun _ t => t) "q" [] = " ... " := by
  decide

/-- C8, amended: the snippet is the lead `"... "` (the separator `" ... "` without its
leading blank) followed by the resolved excerpts, one per fragment, joined with `" ... "`;
for an empty fragment list it is the lead alone, and its length is that of the lead, of the
excerpts and of n-1 separators. -/
theorem snippet_is_lead_then_joined_excerpts (findOffsets : String → String → String)
    (query : String) (hls : List Highlight) :
    assembleSnippet findOffsets query hls
        = "... " ++ join " ... " (excerpts findOffsets query hls)
      ∧ " " ++ snippetLead = snippetSeparator
      ∧ (excerpts findOffsets query hls).length = hls.length
      ∧ assembleSnippet findOffsets query [] = "... "
      ∧ (assembleSnippet findOffsets query hls).length
          = 4 + ((excerpts findOffsets query hls).map String.length).sum
              + (hls.length - 1) * 5 := by
  have hlen : (excerpts findOffsets query hls).length = hls.length := by
    unfold excerpts sortedFragments
    rw [List.length_map]
    exact (jsSort_perm byOffset hls).length_eq
  refine ⟨rfl, by decide, hlen, rfl, ?_⟩
  unfold assembleSnippet
  rw [String.length_append, join_length, hlen]
  have h1 : snippetLead.length = 4 := by decide
  have h2 : snippetSeparator.length = 5 := by decide
  rw [h1, h2]
  omega

set_option maxRecDepth 100000 in
/-- Counterexample to C9 as stated: with an override url `u` for a result whose record url is
`a`, the link target rendered by the code is `a`, so the view differs from the one in which
the override is the link target. -/
theorem override_url_is_not_link_target :
    SearchResultView false [⟨1, "a", some "A", "s"⟩] "q" (fun _ => some ⟨some "T", some "u"⟩)
        ≠ claimedSearchResultView false [⟨1, "a", some "A", "s"⟩] "q"
            (fun _ => some ⟨some "T", some "u"⟩)
      ∧ resultItem false (fun _ => some ⟨some "T", some "u"⟩) ⟨1, "a", some "A", "s"⟩
          = entryHtml "" "a" "T" "u" "s" := by
  decide

/-- C9, amended: `SearchResultView` renders one entry per result, in result order; the link
label is the override title when present and non-empty, else the record title when present
and non-empty, else the raw url; the url shown under the link is the override url when
present and non-empty, else the record url; the link target is always the record url. For
results 1 and 2 with no overrides, record 1 titled "A" at "a" and record 2 untitled at "b",
the entries are "A" linking to "a", then "b" linking to "b". -/
theorem search_view_entries (DEBUG : Bool) (results : List SearchResult) (query : String)
    (HL : Nat → Option Override) :
    SearchResultView DEBUG results query HL
        = searchViewHead query ++
            join "\n" (results.map (fun r =>
              entryHtml (debugTag DEBUG r.id) r.url (claimedLabel HL r) (claimedUrl HL r)
                r.snippet)) ++
            searchViewTail
      ∧ (∀ s1 s2 : String,
          SearchResultView false [⟨1, "a", some "A", s1⟩, ⟨2, "b", none, s2⟩] query
              (fun _ => none)
            = searchViewHead query ++
                (entryHtml "" "a" "A" "a" s1 ++ "\n" ++ entryHtml "" "b" "b" "b" s2) ++
                searchViewTail) := by
  constructor
  · have hitem : resultItem DEBUG HL = fun r =>
        entryHtml (debugTag DEBUG r.id) r.url (claimedLabel HL r) (claimedUrl HL r)
          r.snippet := by
      funext r
      unfold resultItem
      rw [label_eq_claimed, shown_eq_claimed]
    unfold SearchResultView
    rw [hitem]
  · intro s1 s2
    simp [SearchResultView, resultItem, join, debugTag, jsOr, truthy, render]

/-- C10, evaluated on the code: for every non-empty index listing `IndexView` raises a
ReferenceError, because the template reads `MAX_HEAD`, which the module neither imports nor
declares; only the empty listing gives an HTML string. -/
theorem index_view_throws_on_entries (DEBUG : Bool) (maxHead : Nat) (e : IndexEntry)
    (rest : List IndexEntry) :
    IndexView DEBUG maxHead (e :: rest) = Except.error (JsError.referenceError "MAX_HEAD")
      ∧ IndexView DEBUG maxHead [] = Except.ok (indexViewHead ++ indexViewTail) := by
  have hm : ("MAX_HEAD" ∈ moduleBindings) = False := by
    simp [moduleBindings]
  constructor
  · simp [IndexView, mapThrowing, indexItem, readIdentifier, hm]
  · simp [IndexView, mapThrowing, join]

end LibraryServer
